import Mathlib

/-
Verification of the `Counter` component of the taja landing page
(`src/app/page.tsx`, lines 62-90; the unnamed source file holds the same
component without the `suffix` prop).

The component's `animate` callback is frame-driven JavaScript:

    const animate = (timestamp) => {
      if (!startTime) startTime = timestamp;
      const progress = Math.min((timestamp - startTime) / (duration * 1000), 1);
      setCount(Math.floor(progress * end));
      if (progress < 1) animationFrame = requestAnimationFrame(animate);
    };

JavaScript numbers are modelled by `JsNum`: finite values are rationals and
the special values NaN and the two infinities are explicit constructors, so
that division by zero, `Math.min`, `Math.floor` and `<` follow the
JavaScript semantics (NaN propagates through arithmetic and `Math.min`;
every comparison against NaN is false).
-/

namespace Counter

/-- Model of a JavaScript number: NaN, the two infinities, or a finite
value (rationals stand in for the doubles actually used, which is exact on
all the integer and small-fraction values the component manipulates). -/
inductive JsNum where
  | nan : JsNum
  | posInf : JsNum
  | negInf : JsNum
  | fin : ℚ → JsNum
deriving DecidableEq, Repr

/-- JavaScript division `a / b`. On finite operands: division by zero
yields NaN (for `0 / 0`) or a signed infinity; otherwise exact division.
The `animate` callback only ever divides two finite numbers, so the
non-finite operand cases (which would propagate NaN/infinities) are
collapsed to NaN. -/
def jsDiv : JsNum → JsNum → JsNum
  | .fin a, .fin b =>
      if b = 0 then (if a = 0 then .nan else if 0 < a then .posInf else .negInf)
      else .fin (a / b)
  | _, _ => .nan

/-- JavaScript `Math.min`: NaN-propagating minimum. -/
def jsMin : JsNum → JsNum → JsNum
  | .nan, _ => .nan
  | _, .nan => .nan
  | .negInf, _ => .negInf
  | _, .negInf => .negInf
  | .posInf, b => b
  | a, .posInf => a
  | .fin a, .fin b => .fin (min a b)

/-- JavaScript multiplication `a * b` (NaN propagates; `±∞ × 0 = NaN`). -/
def jsMul : JsNum → JsNum → JsNum
  | .nan, _ => .nan
  | _, .nan => .nan
  | .fin a, .fin b => .fin (a * b)
  | .posInf, .fin b => if b = 0 then .nan else if 0 < b then .posInf else .negInf
  | .negInf, .fin b => if b = 0 then .nan else if 0 < b then .negInf else .posInf
  | .fin a, .posInf => if a = 0 then .nan else if 0 < a then .posInf else .negInf
  | .fin a, .negInf => if a = 0 then .nan else if 0 < a then .negInf else .posInf
  | .posInf, .posInf => .posInf
  | .posInf, .negInf => .negInf
  | .negInf, .posInf => .negInf
  | .negInf, .negInf => .posInf

/-- JavaScript `Math.floor` (identity on NaN and the infinities). -/
def jsFloor : JsNum → JsNum
  | .fin q => .fin ((Int.floor q : ℤ) : ℚ)
  | x => x

/-- JavaScript `<` as used in `if (progress < 1)`: any comparison with NaN
is false. -/
def jsLt : JsNum → JsNum → Bool
  | .nan, _ => false
  | _, .nan => false
  | .negInf, .negInf => false
  | .negInf, _ => true
  | _, .negInf => false
  | .posInf, _ => false
  | .fin _, .posInf => true
  | .fin a, .fin b => decide (a < b)

/-- The mutable state the `animate` callback reads and writes: the
captured `startTime` (a JS `let startTime : number` that starts out
`undefined`, hence `Option`) and the React state `count` (the argument of
the last `setCount` call; `useState(0)` initialises it to `0`). -/
structure AnimState where
  startTime : Option ℚ
  count : JsNum
deriving DecidableEq, Repr

/-- State at mount: `startTime` undefined, `count = 0`. -/
def initState : AnimState := ⟨none, .fin 0⟩

/-- The line `if (!startTime) startTime = timestamp;`. JavaScript `!x` is
true when `x` is `undefined` or `0`, so a captured start of `0` is treated
as unset and the current timestamp is captured again. -/
def latchStart : Option ℚ → ℚ → ℚ
  | none, t => t
  | some t0, t => if t0 = 0 then t else t0

/-- The line `Math.min((timestamp - startTime) / (duration * 1000), 1)`,
given the already-latched start `st`. -/
def progressOf (duration st t : ℚ) : JsNum :=
  jsMin (jsDiv (.fin (t - st)) (.fin (duration * 1000))) (.fin 1)

/-- One call of the `animate` callback at frame timestamp `t`: latch the
start, compute `progress`, write `Math.floor(progress * end)` to the count
state, and report whether another frame is requested (`progress < 1`). -/
def animateTick (endv duration : ℚ) (s : AnimState) (t : ℚ) : AnimState × Bool :=
  let st := latchStart s.startTime t
  let progress := progressOf duration st t
  (⟨some st, jsFloor (jsMul progress (.fin endv))⟩, jsLt progress (.fin 1))

/-- States after each executed tick when the browser would deliver the
frame timestamps `ts` in order: a tick runs only while the previous tick
requested another frame. -/
def runTraceFrom (endv duration : ℚ) (s : AnimState) : List ℚ → List AnimState
  | [] => []
  | t :: ts =>
    let r := animateTick endv duration s t
    r.1 :: (if r.2 then runTraceFrom endv duration r.1 ts else [])

/-- Trace of an animation run from the mount state. -/
def runTrace (endv duration : ℚ) (ts : List ℚ) : List AnimState :=
  runTraceFrom endv duration initState ts

/-- Spec-side progress, written from the spec's words: elapsed time
divided by total duration, clamped to the interval from 0 to 1. -/
def specProgress (elapsed total : ℚ) : ℚ := max 0 (min (elapsed / total) 1)

/-- Spec-side displayed value: the floor of progress times the target. -/
def specCount (elapsed total endv : ℚ) : ℤ := Int.floor (specProgress elapsed total * endv)

/-- Invariant threading one animation run; `u` is the timestamp of the
last executed tick (or any lower bound on the first timestamp before any
tick has run). Either no tick has run, or the latched start is 0 (the
falsy test will re-latch on the next tick; the count written together with
a fresh latch is 0), or the latch is a fixed nonzero `t0` and the count is
the code's floor formula evaluated at `u`. -/
def Shape (endv duration u : ℚ) (s : AnimState) : Prop :=
  (s.startTime = none ∧ s.count = .fin 0) ∨
  (s.startTime = some 0 ∧ s.count = .fin 0) ∨
  (∃ t0 : ℚ, s.startTime = some t0 ∧ t0 ≠ 0 ∧ t0 ≤ u ∧
    s.count = .fin ((Int.floor (min ((u - t0) / (duration * 1000)) 1 * endv) : ℤ) : ℚ))
/-- Monotone step relation on displayed counts: both are finite integers,
in non-decreasing order. -/
def countLE (a b : AnimState) : Prop :=
  ∃ x y : ℤ, a.count = .fin (x : ℚ) ∧ b.count = .fin (y : ℚ) ∧ x ≤ y

/-- Antitone step relation on displayed counts: both are finite integers,
in non-increasing order. -/
def countGE (a b : AnimState) : Prop :=
  ∃ x y : ℤ, a.count = .fin (x : ℚ) ∧ b.count = .fin (y : ℚ) ∧ y ≤ x
/-- The source's default value of the `duration` prop
(`duration = 2`, multiplied by 1000 inside `animate`). -/
def durationDefault : ℚ := 2
/-- Iterated ticks along a frame-timestamp stream (state before the n-th
tick). -/
def stateAfter (endv duration : ℚ) (tsf : ℕ → ℚ) : ℕ → AnimState
  | 0 => initState
  | n + 1 => (animateTick endv duration (stateAfter endv duration tsf n) (tsf n)).1

/-- Whether the n-th tick requests another animation frame. -/
def schedulesAt (endv duration : ℚ) (tsf : ℕ → ℚ) (n : ℕ) : Bool :=
  (animateTick endv duration (stateAfter endv duration tsf n) (tsf n)).2

/-- The scheduling loop never stops: every tick requests another frame. -/
def schedulesForever (endv duration : ℚ) (tsf : ℕ → ℚ) : Prop :=
  ∀ n : ℕ, schedulesAt endv duration tsf n = true
/-- Visibility-trigger model. `useInView(ref, { once: true })` yields
`false` until the observer first reports the element visible and `true`
from then on; the effect has dependency array `[isInView, end, duration]`
(the props are fixed for a mounted instance), so it re-runs exactly when
`isInView` changes, and its body starts the animation only when the guard
`if (!isInView) return;` passes. `animationStarts inView evs` counts the
animation starts over the remaining visibility reports `evs`, with
`inView` the currently latched value: a report that leaves the latched
value unchanged re-runs nothing; a report that changes it re-runs the
effect, which starts the animation exactly when the new value is true. -/
def animationStarts : Bool → List Bool → ℕ
  | _, [] => 0
  | inView, e :: es =>
    (if (inView || e) = inView then 0 else if (inView || e) = true then 1 else 0) +
      animationStarts (inView || e) es

/-- Number of animation starts over a mounted instance's lifetime, given
the sequence of visibility reports: at mount the effect runs once with
`isInView = false` and the guard returns early, starting nothing. -/
def startCount (evs : List Bool) : ℕ := animationStarts false evs
/-- Component state for the scheduling and cancellation model: the
animation state, the `animationFrame` variable (the last id returned by
`requestAnimationFrame`), the id of the frame callback the browser still
holds (the component keeps at most one request outstanding), a fresh-id
counter, whether the component is still mounted, and a count of
`setCount` writes performed after teardown. -/
structure SchedState where
  anim : AnimState
  lastReq : Option ℕ
  pending : Option ℕ
  nextId : ℕ
  mounted : Bool
  writesAfterUnmount : ℕ
deriving DecidableEq, Repr

/-- `animationFrame = requestAnimationFrame(animate)`. -/
def requestFrame (s : SchedState) : SchedState :=
  { s with lastReq := some s.nextId, pending := some s.nextId, nextId := s.nextId + 1 }

/-- `cancelAnimationFrame(h)`: removes the matching outstanding request;
on a stale or absent handle it silently does nothing and never throws. -/
def cancelFrame (s : SchedState) (h : Option ℕ) : SchedState :=
  match h with
  | none => s
  | some i => if s.pending = some i then { s with pending := none } else s

/-- State right after the effect body ran on first visibility and
requested the first frame. -/
def startedState : SchedState :=
  requestFrame
    { anim := initState, lastReq := none, pending := none, nextId := 0,
      mounted := true, writesAfterUnmount := 0 }

/-- External events: the browser delivers a frame at a timestamp, firing
the outstanding `animate` callback if there is one (the callback writes
the count and may request the next frame), or React unmounts the
component and runs the effect cleanup
`() => cancelAnimationFrame(animationFrame)`. -/
inductive Ev where
  | frame : ℚ → Ev
  | unmount : Ev

/-- The `animate` callback fires: the outstanding request is consumed,
`setCount` writes the new count (a write after teardown is tallied), and
a further frame is requested when `progress < 1`. -/
def fireWrite (endv duration : ℚ) (s : SchedState) (t : ℚ) : SchedState :=
  { s with
    pending := none
    anim := (animateTick endv duration s.anim t).1
    writesAfterUnmount := s.writesAfterUnmount + (if s.mounted = true then 0 else 1) }

/-- A frame is delivered: nothing happens unless this component still has
an outstanding request. -/
def fireFrame (endv duration : ℚ) (s : SchedState) (t : ℚ) : SchedState :=
  if s.pending = none then s
  else if (animateTick endv duration s.anim t).2 then
    requestFrame (fireWrite endv duration s t)
  else fireWrite endv duration s t

/-- React unmounts the component: the effect cleanup runs
`cancelAnimationFrame(animationFrame)`. -/
def unmountStep (s : SchedState) : SchedState :=
  { cancelFrame s s.lastReq with mounted := false }

def stepEv (endv duration : ℚ) (s : SchedState) : Ev → SchedState
  | .frame t => fireFrame endv duration s t
  | .unmount => unmountStep s

def runEvents (endv duration : ℚ) (s : SchedState) : List Ev → SchedState
  | [] => s
  | e :: es => runEvents endv duration (stepEv endv duration s e) es

/-- Scheduler invariant: the outstanding request, if any, is the one the
`animationFrame` variable holds, and an unmounted component has no
outstanding request. -/
def SchedInv (s : SchedState) : Prop :=
  (s.pending = none ∨ s.pending = s.lastReq) ∧ (s.mounted = false → s.pending = none)
/-- Insert the group separator after every third digit, working on the
reversed digit list (index counted from the least significant digit). -/
def groupAux : ℕ → List Char → List Char
  | _, [] => []
  | n, c :: cs =>
    if n ≠ 0 ∧ n % 3 = 0 then ',' :: c :: groupAux (n + 1) cs
    else c :: groupAux (n + 1) cs

/-- Thousands grouping of a digit list (most significant digit first). -/
def groupDigits (cs : List Char) : List Char := (groupAux 0 cs.reverse).reverse

/-- Model of `Number.prototype.toLocaleString()` on the integer counts
the component renders, for a locale with grouping size 3 and a comma
separator (such as the en-US default). -/
def toLocaleString (n : ℤ) : String :=
  (if n < 0 then "-" else "") ++ String.mk (groupDigits (Nat.toDigits 10 n.natAbs))

/-- `count.toLocaleString()` on the modelled JS number (in JavaScript,
`NaN.toLocaleString()` is "NaN" and the infinities render as a signed
infinity sign; the finite counts the component writes are always the
integers produced by `Math.floor`). -/
def JsNum.toLocale : JsNum → String
  | .fin q => toLocaleString (Int.floor q)
  | .nan => "NaN"
  | .posInf => "∞"
  | .negInf => "-∞"

/-- The render expression `<span>{count.toLocaleString()}{suffix}</span>`:
the grouped numeric text with the suffix appended verbatim. -/
def renderText (s : AnimState) (suffix : String) : String :=
  JsNum.toLocale s.count ++ suffix

example : animateTick 20 2 initState 0 = (⟨some 0, .fin 0⟩, true) := by
  norm_num [animateTick, progressOf, latchStart, jsDiv, jsMin, jsMul, jsFloor, jsLt, initState]
example : animateTick 20 2 ⟨some 0, .fin 0⟩ 100 = (⟨some 100, .fin 0⟩, true) := by
  norm_num [animateTick, progressOf, latchStart, jsDiv, jsMin, jsMul, jsFloor, jsLt]
example : animateTick 20 2 ⟨some 100, .fin 0⟩ 200 = (⟨some 100, .fin 1⟩, true) := by
  norm_num [animateTick, progressOf, latchStart, jsDiv, jsMin, jsMul, jsFloor, jsLt]
example : animateTick 12847 2 ⟨some 7, .fin 0⟩ 1007 = (⟨some 7, .fin 6423⟩, true) := by
  norm_num [animateTick, progressOf, latchStart, jsDiv, jsMin, jsMul, jsFloor, jsLt]
example : animateTick 12847 2 ⟨some 7, .fin 0⟩ 2007 = (⟨some 7, .fin 12847⟩, false) := by
  norm_num [animateTick, progressOf, latchStart, jsDiv, jsMin, jsMul, jsFloor, jsLt]
example : specCount 1000 2000 20 = 10 := by
  norm_num [specCount, specProgress]
example : runTrace 20 2 [0, 1000] = [⟨some 0, .fin 0⟩, ⟨some 1000, .fin 0⟩] := by
  norm_num [runTrace, runTraceFrom, animateTick, progressOf, latchStart, jsDiv, jsMin,
    jsMul, jsFloor, jsLt, initState]
example : animateTick 5 0 initState 3 = (⟨some 3, .nan⟩, false) := by
  norm_num [animateTick, progressOf, latchStart, jsDiv, jsMin, jsMul, jsFloor, jsLt, initState]

lemma progressOf_eq_min (duration : ℚ) (hd : duration ≠ 0) (st t : ℚ) :
    progressOf duration st t = .fin (min ((t - st) / (duration * 1000)) 1) := by
  have hD : duration * 1000 ≠ 0 := by
    intro h
    rcases mul_eq_zero.mp h with h1 | h1
    · exact hd h1
    · norm_num at h1
  simp [progressOf, jsDiv, jsMin, hD]

lemma animateTick_count (endv duration : ℚ) (hd : duration ≠ 0) (s : AnimState) (t : ℚ) :
    (animateTick endv duration s t).1.count =
      .fin ((Int.floor (min ((t - latchStart s.startTime t) / (duration * 1000)) 1 * endv) : ℤ) : ℚ) := by
  simp [animateTick, progressOf_eq_min duration hd, jsMul, jsFloor]

lemma animateTick_startTime (endv duration : ℚ) (s : AnimState) (t : ℚ) :
    (animateTick endv duration s t).1.startTime = some (latchStart s.startTime t) := rfl

lemma animateTick_cont (endv duration : ℚ) (hd : duration ≠ 0) (s : AnimState) (t : ℚ) :
    (animateTick endv duration s t).2 =
      decide (min ((t - latchStart s.startTime t) / (duration * 1000)) 1 < 1) := by
  simp [animateTick, progressOf_eq_min duration hd, jsLt]

/-- On a tick whose elapsed time has reached the total duration, progress
is exactly 1, the written count is exactly the target, and no further
frame is requested. -/
lemma terminal_tick (endv : ℤ) (duration : ℚ) (hd : 0 < duration) (s : AnimState) (t : ℚ)
    (hel : duration * 1000 ≤ t - latchStart s.startTime t) :
    progressOf duration (latchStart s.startTime t) t = .fin 1 ∧
    (animateTick (endv : ℚ) duration s t).1.count = .fin ((endv : ℤ) : ℚ) ∧
    (animateTick (endv : ℚ) duration s t).2 = false := by
  have hD : 0 < duration * 1000 := by positivity
  have h1 : 1 ≤ (t - latchStart s.startTime t) / (duration * 1000) :=
    (one_le_div hD).mpr hel
  have hmin : min ((t - latchStart s.startTime t) / (duration * 1000)) 1 = 1 :=
    min_eq_right h1
  refine ⟨?_, ?_, ?_⟩
  · rw [progressOf_eq_min duration (ne_of_gt hd), hmin]
  · rw [animateTick_count (endv : ℚ) duration (ne_of_gt hd), hmin]
    norm_num
  · rw [animateTick_cont (endv : ℚ) duration (ne_of_gt hd), hmin]
    norm_num

/-- Claim C1: for every non-negative integer target and positive duration,
a tick driven past the terminal instant (elapsed at least `duration * 1000`
milliseconds) clamps progress to exactly 1, writes exactly the target to
the displayed count, and schedules no further tick. -/
theorem counter_exact_settlement (endv : ℤ) (duration : ℚ) (he : 0 ≤ endv)
    (hd : 0 < duration) (s : AnimState) (t : ℚ)
    (hel : duration * 1000 ≤ t - latchStart s.startTime t) :
    progressOf duration (latchStart s.startTime t) t = .fin 1 ∧
    (animateTick (endv : ℚ) duration s t).1.count = .fin ((endv : ℤ) : ℚ) ∧
    (animateTick (endv : ℚ) duration s t).2 = false :=
  terminal_tick endv duration hd s t hel

/-- Claim C1, witnessed at target 7, duration 1 s, start 5, tick at 1010. -/
theorem counter_exact_settlement_witness :
    (0 : ℤ) ≤ 7 ∧ (0 : ℚ) < 1 ∧
      (1 : ℚ) * 1000 ≤ 1010 - latchStart (some 5) 1010 ∧
      (progressOf 1 (latchStart (some 5) 1010) 1010 = .fin 1 ∧
        (animateTick ((7 : ℤ) : ℚ) 1 ⟨some 5, .fin 0⟩ 1010).1.count = .fin (((7 : ℤ) : ℤ) : ℚ) ∧
        (animateTick ((7 : ℤ) : ℚ) 1 ⟨some 5, .fin 0⟩ 1010).2 = false) :=
  ⟨by norm_num, by norm_num, by norm_num [latchStart],
    counter_exact_settlement 7 1 (by norm_num) (by norm_num) ⟨some 5, .fin 0⟩ 1010
      (by norm_num [latchStart])⟩

lemma specProgress_nonneg (e tot : ℚ) : 0 ≤ specProgress e tot := le_max_left 0 _

lemma specProgress_le_one (e tot : ℚ) : specProgress e tot ≤ 1 :=
  max_le (by norm_num) (min_le_right _ _)

lemma specProgress_of_nonneg (e tot : ℚ) (htot : 0 < tot) (he : 0 ≤ e) :
    specProgress e tot = min (e / tot) 1 := by
  have : 0 ≤ min (e / tot) 1 := le_min (by positivity) (by norm_num)
  exact max_eq_right this

/-- One tick of a run whose latched start is a nonzero `t0`: the latch is
kept and the written count matches the spec formula for the elapsed time
`t - t0`. -/
lemma tick_formula_step (endv duration t0 : ℚ) (hd : 0 < duration) (h0 : t0 ≠ 0)
    (s : AnimState) (hs : s.startTime = some t0) (t : ℚ) (ht : t0 ≤ t) :
    (animateTick endv duration s t).1.startTime = some t0 ∧
    (animateTick endv duration s t).1.count =
      .fin ((specCount (t - t0) (duration * 1000) endv : ℤ) : ℚ) := by
  have hD : 0 < duration * 1000 := by positivity
  have hlatch : latchStart s.startTime t = t0 := by
    rw [hs]
    simp [latchStart, h0]
  constructor
  · rw [animateTick_startTime, hlatch]
  · rw [animateTick_count endv duration (ne_of_gt hd), hlatch, specCount,
      specProgress_of_nonneg _ _ hD (by linarith)]

lemma tick_formula_run (endv duration t0 : ℚ) (hd : 0 < duration) (h0 : t0 ≠ 0)
    (ts : List ℚ) : ∀ (u : ℚ) (s : AnimState), s.startTime = some t0 → t0 ≤ u →
      List.Chain LE.le u ts →
      ∀ p ∈ (runTraceFrom endv duration s ts).zip ts,
        p.1.count = .fin ((specCount (p.2 - t0) (duration * 1000) endv : ℤ) : ℚ) := by
  induction ts with
  | nil => intro u s _ _ _ p hp; simp [runTraceFrom] at hp
  | cons t ts ih =>
    intro u s hs htu hchain p hp
    rw [List.chain_cons] at hchain
    have htt : t0 ≤ t := le_trans htu hchain.1
    have hstep := tick_formula_step endv duration t0 hd h0 s hs t htt
    rw [runTraceFrom] at hp
    rcases List.mem_cons.mp (by simpa using hp) with hhead | htail
    · rw [hhead]
      exact hstep.2
    · rcases hob : (animateTick endv duration s t).2 with hfalse | htrue
      · rw [hob] at htail
        simp at htail
      · rw [hob] at htail
        simp only [if_true] at htail
        exact ih t (animateTick endv duration s t).1 hstep.1 htt hchain.2 p htail

/-- Claim C2 counterexample: in a run whose first frame timestamp is
exactly 0 (target 20, duration prop 2, frames at 0 and 1000 ms), the
second tick displays 0, while the claim's formula
`floor(progress x target)` with progress measured from the run's start
gives `floor((1000 / 2000) * 20) = 10`. -/
theorem counter_tick_formula_cex :
    (runTrace 20 2 [0, 1000]).map AnimState.count = [.fin 0, .fin 0] ∧
    specCount (1000 - 0) (2 * 1000) 20 = 10 ∧
    JsNum.fin ((10 : ℤ) : ℚ) ≠ JsNum.fin 0 := by
  refine ⟨?_, ?_, ?_⟩ <;>
    norm_num [runTrace, runTraceFrom, animateTick, progressOf, latchStart, jsDiv, jsMin,
      jsMul, jsFloor, jsLt, initState, specCount, specProgress]

/-- Claim C2 (amended: the claim holds for every run whose first tick
timestamp is nonzero; a first timestamp of exactly 0 is re-latched by the
falsy test `if (!startTime)` and shifts the elapsed-time origin): at every
tick of a running animation, the displayed count equals
`floor(progress x target)`, where progress is the elapsed time since the
run's first tick divided by the total duration and lies in `[0, 1]`. -/
theorem counter_tick_formula (endv duration t0 : ℚ) (hd : 0 < duration) (h0 : t0 ≠ 0)
    (rest : List ℚ) (hchain : List.Chain LE.le t0 rest) :
    ∀ p ∈ (runTrace endv duration (t0 :: rest)).zip (t0 :: rest),
      p.1.count = .fin ((specCount (p.2 - t0) (duration * 1000) endv : ℤ) : ℚ) ∧
      0 ≤ specProgress (p.2 - t0) (duration * 1000) ∧
      specProgress (p.2 - t0) (duration * 1000) ≤ 1 := by
  intro p hp
  refine ⟨?_, specProgress_nonneg _ _, specProgress_le_one _ _⟩
  have hs1 : (animateTick endv duration initState t0).1.startTime = some t0 := rfl
  have hstep := tick_formula_step endv duration t0 hd h0
    (animateTick endv duration initState t0).1 hs1
  rw [runTrace, runTraceFrom] at hp
  rcases List.mem_cons.mp (by simpa using hp) with hhead | htail
  · have hfirst : (animateTick endv duration initState t0).1.count =
        .fin ((specCount (t0 - t0) (duration * 1000) endv : ℤ) : ℚ) := by
      rw [animateTick_count endv duration (ne_of_gt hd)]
      have : latchStart initState.startTime t0 = t0 := rfl
      rw [this, specCount, specProgress_of_nonneg _ _ (by positivity) (by norm_num)]
    rw [hhead]
    exact hfirst
  · rcases hob : (animateTick endv duration initState t0).2 with hfalse | htrue
    · rw [hob] at htail
      simp at htail
    · rw [hob] at htail
      simp only [if_true] at htail
      exact tick_formula_run endv duration t0 hd h0 rest t0
        (animateTick endv duration initState t0).1 hs1 le_rfl hchain p htail

/-- Claim C2 witness: the run with target 20, duration prop 2, frames at
100 and 1100 ms; its first tick pairs the state `(some 100, 0)` with the
timestamp 100, where the spec formula also gives 0. -/
theorem counter_tick_formula_witness :
    0 < (2 : ℚ) ∧ (100 : ℚ) ≠ 0 ∧ List.Chain LE.le (100 : ℚ) [1100] ∧
      ((⟨some 100, .fin 0⟩, (100 : ℚ)) ∈
        (runTrace 20 2 ((100 : ℚ) :: [1100])).zip ((100 : ℚ) :: [1100])) ∧
      ((⟨some 100, .fin 0⟩ : AnimState).count =
          .fin ((specCount ((100 : ℚ) - 100) (2 * 1000) 20 : ℤ) : ℚ) ∧
        0 ≤ specProgress ((100 : ℚ) - 100) (2 * 1000) ∧
        specProgress ((100 : ℚ) - 100) (2 * 1000) ≤ 1) := by
  have hchain : List.Chain LE.le (100 : ℚ) [1100] :=
    List.Chain.cons (by norm_num) List.Chain.nil
  have hmem : ((⟨some 100, .fin 0⟩, (100 : ℚ)) ∈
      (runTrace 20 2 ((100 : ℚ) :: [1100])).zip ((100 : ℚ) :: [1100])) := by
    have htr : runTrace 20 2 ((100 : ℚ) :: [1100]) =
        [⟨some 100, .fin 0⟩, ⟨some 100, .fin 10⟩] := by
      norm_num [runTrace, runTraceFrom, animateTick, progressOf, latchStart, jsDiv,
        jsMin, jsMul, jsFloor, jsLt, initState]
    rw [htr]
    simp [List.zip]
  exact ⟨by norm_num, by norm_num, hchain, hmem,
    counter_tick_formula 20 2 100 (by norm_num) (by norm_num) [1100] hchain _ hmem⟩

lemma latchStart_none (t : ℚ) : latchStart none t = t := rfl

lemma latchStart_zero (t : ℚ) : latchStart (some 0) t = t := by simp [latchStart]

lemma latchStart_ne (t0 t : ℚ) (h : t0 ≠ 0) : latchStart (some t0) t = t0 := by
  simp [latchStart, h]

lemma tick_count_fresh (endv duration : ℚ) (hd : 0 < duration) (s : AnimState) (t : ℚ)
    (hl : latchStart s.startTime t = t) :
    (animateTick endv duration s t).1.count = .fin 0 := by
  rw [animateTick_count endv duration (ne_of_gt hd), hl, sub_self, zero_div,
    min_eq_left zero_le_one, zero_mul, Int.floor_zero]
  norm_num

lemma shape_initState (endv duration u : ℚ) : Shape endv duration u initState :=
  Or.inl ⟨rfl, rfl⟩

lemma shape_latch_le (endv duration u : ℚ) (s : AnimState)
    (hs : Shape endv duration u s) (t : ℚ) (hut : u ≤ t) :
    latchStart s.startTime t ≤ t := by
  rcases hs with ⟨h1, _⟩ | ⟨h1, _⟩ | ⟨t0, h1, h2, h3, _⟩
  · rw [h1, latchStart_none]
  · rw [h1, latchStart_zero]
  · rw [h1, latchStart_ne t0 t h2]
    linarith

lemma shape_step (endv duration : ℚ) (hd : 0 < duration) (u t : ℚ) (s : AnimState)
    (hs : Shape endv duration u s) (hut : u ≤ t) :
    Shape endv duration t (animateTick endv duration s t).1 := by
  rcases hs with ⟨h1, _⟩ | ⟨h1, _⟩ | ⟨t0, h1, h2, h3, _⟩
  · rcases eq_or_ne t 0 with ht | ht
    · refine Or.inr (Or.inl ⟨?_, ?_⟩)
      · rw [animateTick_startTime, h1, latchStart_none, ht]
      · exact tick_count_fresh endv duration hd s t (by rw [h1, latchStart_none])
    · refine Or.inr (Or.inr ⟨t, ?_, ht, le_rfl, ?_⟩)
      · rw [animateTick_startTime, h1, latchStart_none]
      · rw [animateTick_count endv duration (ne_of_gt hd), h1, latchStart_none]
  · rcases eq_or_ne t 0 with ht | ht
    · refine Or.inr (Or.inl ⟨?_, ?_⟩)
      · rw [animateTick_startTime, h1, latchStart_zero, ht]
      · exact tick_count_fresh endv duration hd s t (by rw [h1, latchStart_zero])
    · refine Or.inr (Or.inr ⟨t, ?_, ht, le_rfl, ?_⟩)
      · rw [animateTick_startTime, h1, latchStart_zero]
      · rw [animateTick_count endv duration (ne_of_gt hd), h1, latchStart_zero]
  · refine Or.inr (Or.inr ⟨t0, ?_, h2, le_trans h3 hut, ?_⟩)
    · rw [animateTick_startTime, h1, latchStart_ne t0 t h2]
    · rw [animateTick_count endv duration (ne_of_gt hd), h1, latchStart_ne t0 t h2]

/-- Generic induction along the executed ticks of a run: any per-tick
consequence `P` of the invariant, together with a per-tick relation `R`
between consecutive states, holds along the whole trace. -/
lemma trace_invariant (endv duration : ℚ) (hd : 0 < duration)
    (P : AnimState → Prop) (R : AnimState → AnimState → Prop)
    (hstep : ∀ u t s, Shape endv duration u s → u ≤ t →
      P (animateTick endv duration s t).1 ∧ R s (animateTick endv duration s t).1)
    (ts : List ℚ) : ∀ (u : ℚ) (s : AnimState), Shape endv duration u s →
      List.Chain LE.le u ts →
      (∀ x ∈ runTraceFrom endv duration s ts, P x) ∧
      List.Chain R s (runTraceFrom endv duration s ts) := by
  induction ts with
  | nil =>
    intro u s _ _
    exact ⟨by simp [runTraceFrom], by rw [runTraceFrom]; exact List.Chain.nil⟩
  | cons t ts ih =>
    intro u s hs hchain
    rw [List.chain_cons] at hchain
    have h1 := hstep u t s hs hchain.1
    have hs2 := shape_step endv duration hd u t s hs hchain.1
    simp only [runTraceFrom]
    rcases hob : (animateTick endv duration s t).2 with h | h
    · refine ⟨?_, ?_⟩
      · intro x hx
        simp at hx
        rw [hx]
        exact h1.1
      · simp only [Bool.false_eq_true, if_false]
        exact List.Chain.cons h1.2 List.Chain.nil
    · simp only [eq_self_iff_true, if_true]
      have h2 := ih t (animateTick endv duration s t).1 hs2 hchain.2
      refine ⟨?_, List.Chain.cons h1.2 h2.2⟩
      intro x hx
      rcases List.mem_cons.mp hx with hx | hx
      · rw [hx]
        exact h1.1
      · exact h2.1 x hx

lemma floor_min_mul_mono (e D a b : ℚ) (hD : 0 < D) (hab : a ≤ b) (he : 0 ≤ e) :
    Int.floor (min (a / D) 1 * e) ≤ Int.floor (min (b / D) 1 * e) := by
  apply Int.floor_le_floor
  exact mul_le_mul_of_nonneg_right
    (min_le_min ((div_le_div_right hD).mpr hab) le_rfl) he

lemma floor_min_mul_anti (e D a b : ℚ) (hD : 0 < D) (hab : a ≤ b) (he : e ≤ 0) :
    Int.floor (min (b / D) 1 * e) ≤ Int.floor (min (a / D) 1 * e) := by
  apply Int.floor_le_floor
  exact mul_le_mul_of_nonpos_right
    (min_le_min ((div_le_div_right hD).mpr hab) le_rfl) he

lemma floor_min_mul_bounds (c : ℤ) (D x : ℚ) (hD : 0 < D) (hx : 0 ≤ x) :
    (0 ≤ c → 0 ≤ Int.floor (min (x / D) 1 * (c : ℚ)) ∧
      Int.floor (min (x / D) 1 * (c : ℚ)) ≤ c) ∧
    (c ≤ 0 → c ≤ Int.floor (min (x / D) 1 * (c : ℚ)) ∧
      Int.floor (min (x / D) 1 * (c : ℚ)) ≤ 0) := by
  have hp0 : 0 ≤ min (x / D) 1 := le_min (by positivity) (by norm_num)
  have hp1 : min (x / D) 1 ≤ 1 := min_le_right _ _
  constructor
  · intro hc
    have hc2 : (0 : ℚ) ≤ (c : ℚ) := by exact_mod_cast hc
    refine ⟨Int.floor_nonneg.mpr (mul_nonneg hp0 hc2), ?_⟩
    have hle : min (x / D) 1 * (c : ℚ) ≤ (c : ℚ) := by
      calc min (x / D) 1 * (c : ℚ) ≤ 1 * (c : ℚ) := mul_le_mul_of_nonneg_right hp1 hc2
        _ = (c : ℚ) := one_mul _
    calc Int.floor (min (x / D) 1 * (c : ℚ)) ≤ Int.floor ((c : ℚ)) := Int.floor_le_floor hle
      _ = c := Int.floor_intCast c
  · intro hc
    have hc2 : (c : ℚ) ≤ 0 := by exact_mod_cast hc
    constructor
    · have hge : (c : ℚ) ≤ min (x / D) 1 * (c : ℚ) := by
        calc (c : ℚ) = 1 * (c : ℚ) := (one_mul _).symm
          _ ≤ min (x / D) 1 * (c : ℚ) := mul_le_mul_of_nonpos_right hp1 hc2
      calc c = Int.floor ((c : ℚ)) := (Int.floor_intCast c).symm
        _ ≤ Int.floor (min (x / D) 1 * (c : ℚ)) := Int.floor_le_floor hge
    · have hme : min (x / D) 1 * (c : ℚ) ≤ 0 := mul_nonpos_iff.mpr (Or.inl ⟨hp0, hc2⟩)
      calc Int.floor (min (x / D) 1 * (c : ℚ)) ≤ Int.floor (0 : ℚ) := Int.floor_le_floor hme
        _ = 0 := Int.floor_zero

/-- Claim C3: for a non-negative integer target and a positive duration,
along any animation run with non-decreasing frame timestamps the displayed
count is an integer between 0 and the target at every tick, is
monotonically non-decreasing across the run's ticks, and for target 0 it
is 0 at every tick. -/
theorem counter_range_mono (endv : ℤ) (duration : ℚ) (he : 0 ≤ endv) (hd : 0 < duration)
    (ts : List ℚ) (hts : List.Chain' LE.le ts) :
    (∀ s ∈ runTrace (endv : ℚ) duration ts, ∃ c : ℤ,
        s.count = .fin (c : ℚ) ∧ 0 ≤ c ∧ c ≤ endv) ∧
    List.Chain countLE initState (runTrace (endv : ℚ) duration ts) ∧
    (endv = 0 → ∀ s ∈ runTrace (endv : ℚ) duration ts, s.count = .fin 0) := by
  have hstep : ∀ u t s, Shape (endv : ℚ) duration u s → u ≤ t →
      (∃ c : ℤ, (animateTick (endv : ℚ) duration s t).1.count = .fin (c : ℚ) ∧
        0 ≤ c ∧ c ≤ endv) ∧ countLE s (animateTick (endv : ℚ) duration s t).1 := by
    intro u t s hs hut
    have hlatch := shape_latch_le (endv : ℚ) duration u s hs t hut
    have hx : 0 ≤ t - latchStart s.startTime t := by linarith
    have hcount := animateTick_count (endv : ℚ) duration (ne_of_gt hd) s t
    have hb := (floor_min_mul_bounds endv (duration * 1000)
      (t - latchStart s.startTime t) (by positivity) hx).1 he
    constructor
    · exact ⟨_, hcount, hb.1, hb.2⟩
    · rcases hs with ⟨h1, h2⟩ | ⟨h1, h2⟩ | ⟨t0, h1, h2, h3, h4⟩
      · exact ⟨0, _, by rw [h2]; norm_num, hcount, hb.1⟩
      · exact ⟨0, _, by rw [h2]; norm_num, hcount, hb.1⟩
      · have hl : latchStart s.startTime t = t0 := by rw [h1, latchStart_ne t0 t h2]
        refine ⟨_, _, h4, hcount, ?_⟩
        rw [hl]
        exact floor_min_mul_mono (endv : ℚ) (duration * 1000) (u - t0) (t - t0)
          (by positivity) (by linarith) (by exact_mod_cast he)
  cases ts with
  | nil =>
    refine ⟨by simp [runTrace, runTraceFrom], ?_, by simp [runTrace, runTraceFrom]⟩
    rw [runTrace, runTraceFrom]
    exact List.Chain.nil
  | cons t ts =>
    have hchain : List.Chain LE.le t (t :: ts) := List.Chain.cons le_rfl hts
    have h := trace_invariant (endv : ℚ) duration hd
      (fun x => ∃ c : ℤ, x.count = .fin (c : ℚ) ∧ 0 ≤ c ∧ c ≤ endv) countLE hstep
      (t :: ts) t initState (shape_initState _ _ _) hchain
    refine ⟨h.1, h.2, ?_⟩
    intro h0 s hs
    rcases h.1 s hs with ⟨c, hc1, hc2, hc3⟩
    rw [hc1]
    have hc0 : c = 0 := le_antisymm (h0 ▸ hc3) hc2
    rw [hc0]
    norm_num

/-- Claim C3 witness: target 20, duration prop 2, frames at 100 and
1100 ms. -/
theorem counter_range_mono_witness :
    (0 : ℤ) ≤ 20 ∧ (0 : ℚ) < 2 ∧ List.Chain' LE.le [(100 : ℚ), 1100] ∧
      ∀ s ∈ runTrace ((20 : ℤ) : ℚ) 2 [100, 1100], ∃ c : ℤ,
        s.count = .fin (c : ℚ) ∧ 0 ≤ c ∧ c ≤ 20 :=
  have hch : List.Chain' LE.le [(100 : ℚ), 1100] :=
    List.Chain.cons (by norm_num) List.Chain.nil
  ⟨by norm_num, by norm_num, hch,
    (counter_range_mono 20 2 (by norm_num) (by norm_num) [100, 1100] hch).1⟩

/-- Claim C10: for a negative integer target and a positive duration,
along any animation run with non-decreasing frame timestamps the displayed
count `floor(progress * target)` is an integer between the target and 0 at
every tick and is monotonically non-increasing across the run's ticks; a
tick driven past the terminal instant writes exactly the target and
schedules no further tick. -/
theorem counter_negative_target (endv : ℤ) (duration : ℚ) (he : endv < 0) (hd : 0 < duration)
    (ts : List ℚ) (hts : List.Chain' LE.le ts) :
    (∀ s ∈ runTrace (endv : ℚ) duration ts, ∃ c : ℤ,
        s.count = .fin (c : ℚ) ∧ endv ≤ c ∧ c ≤ 0) ∧
    List.Chain countGE initState (runTrace (endv : ℚ) duration ts) ∧
    (∀ (s : AnimState) (t : ℚ), duration * 1000 ≤ t - latchStart s.startTime t →
      (animateTick (endv : ℚ) duration s t).1.count = .fin ((endv : ℤ) : ℚ) ∧
      (animateTick (endv : ℚ) duration s t).2 = false) := by
  have hle : endv ≤ 0 := le_of_lt he
  have hstep : ∀ u t s, Shape (endv : ℚ) duration u s → u ≤ t →
      (∃ c : ℤ, (animateTick (endv : ℚ) duration s t).1.count = .fin (c : ℚ) ∧
        endv ≤ c ∧ c ≤ 0) ∧ countGE s (animateTick (endv : ℚ) duration s t).1 := by
    intro u t s hs hut
    have hlatch := shape_latch_le (endv : ℚ) duration u s hs t hut
    have hx : 0 ≤ t - latchStart s.startTime t := by linarith
    have hcount := animateTick_count (endv : ℚ) duration (ne_of_gt hd) s t
    have hb := (floor_min_mul_bounds endv (duration * 1000)
      (t - latchStart s.startTime t) (by positivity) hx).2 hle
    constructor
    · exact ⟨_, hcount, hb.1, hb.2⟩
    · rcases hs with ⟨h1, h2⟩ | ⟨h1, h2⟩ | ⟨t0, h1, h2, h3, h4⟩
      · exact ⟨0, _, by rw [h2]; norm_num, hcount, hb.2⟩
      · exact ⟨0, _, by rw [h2]; norm_num, hcount, hb.2⟩
      · have hl : latchStart s.startTime t = t0 := by rw [h1, latchStart_ne t0 t h2]
        refine ⟨_, _, h4, hcount, ?_⟩
        rw [hl]
        exact floor_min_mul_anti (endv : ℚ) (duration * 1000) (u - t0) (t - t0)
          (by positivity) (by linarith) (by exact_mod_cast hle)
  have hterm : ∀ (s : AnimState) (t : ℚ),
      duration * 1000 ≤ t - latchStart s.startTime t →
      (animateTick (endv : ℚ) duration s t).1.count = .fin ((endv : ℤ) : ℚ) ∧
      (animateTick (endv : ℚ) duration s t).2 = false := by
    intro s t h
    exact ⟨(terminal_tick endv duration hd s t h).2.1, (terminal_tick endv duration hd s t h).2.2⟩
  cases ts with
  | nil =>
    refine ⟨by simp [runTrace, runTraceFrom], ?_, hterm⟩
    rw [runTrace, runTraceFrom]
    exact List.Chain.nil
  | cons t ts =>
    have hchain : List.Chain LE.le t (t :: ts) := List.Chain.cons le_rfl hts
    have h := trace_invariant (endv : ℚ) duration hd
      (fun x => ∃ c : ℤ, x.count = .fin (c : ℚ) ∧ endv ≤ c ∧ c ≤ 0) countGE hstep
      (t :: ts) t initState (shape_initState _ _ _) hchain
    exact ⟨h.1, h.2, hterm⟩

/-- Claim C10 witness: target -9, duration prop 2, frames at 100 and
3000 ms (the second frame is past the terminal instant). -/
theorem counter_negative_target_witness :
    (-9 : ℤ) < 0 ∧ (0 : ℚ) < 2 ∧ List.Chain' LE.le [(100 : ℚ), 3000] ∧
      ∀ s ∈ runTrace ((-9 : ℤ) : ℚ) 2 [100, 3000], ∃ c : ℤ,
        s.count = .fin (c : ℚ) ∧ (-9 : ℤ) ≤ c ∧ c ≤ 0 :=
  have hch : List.Chain' LE.le [(100 : ℚ), 3000] :=
    List.Chain.cons (by norm_num) List.Chain.nil
  ⟨by norm_num, by norm_num, hch,
    (counter_negative_target (-9) 2 (by norm_num) (by norm_num) [100, 3000] hch).1⟩

/-- Claim C6 counterexample: the scenario run whose first frame timestamp
is exactly 0 (target 12847, default duration prop 2, frames at 0, 1000
and 2000 ms). The claim demands a displayed count of 6423 at elapsed
1000 ms and 12847 at every elapsed of at least 2000 ms, but the falsy
test `if (!startTime)` re-captures the start at the second tick and
shifts the elapsed-time origin: the code displays 0 at the 1000 ms frame
and 6423 at the 2000 ms frame. -/
theorem counter_scenario_12847_cex :
    (runTrace 12847 durationDefault [0, 1000, 2000]).map AnimState.count =
      [.fin 0, .fin 0, .fin 6423] ∧
    specCount (1000 - 0) (durationDefault * 1000) 12847 = 6423 ∧
    specCount (2000 - 0) (durationDefault * 1000) 12847 = 12847 ∧
    JsNum.fin 0 ≠ JsNum.fin 6423 ∧ JsNum.fin 6423 ≠ JsNum.fin 12847 := by
  refine ⟨?_, ?_, ?_, ?_, ?_⟩ <;>
    norm_num [runTrace, runTraceFrom, animateTick, progressOf, latchStart, jsDiv, jsMin,
      jsMul, jsFloor, jsLt, initState, specCount, specProgress, durationDefault]

/-- Claim C6 (amended: the scenario holds for every run whose latched
start `t0` is nonzero; a run whose first frame timestamp is exactly 0 is
re-latched by the falsy test `if (!startTime)` and shifts the
elapsed-time origin, as the counterexample shows): with target 12847 and
the default duration prop 2 (that is, the spec's `durationMs = 2000`,
since the prop is multiplied by 1000), a tick of a run latched at a
nonzero `t0` displays 6423 at elapsed 1000 ms, and displays exactly 12847
and stops scheduling at every elapsed of at least 2000 ms. -/
theorem counter_scenario_12847 (t0 : ℚ) (h0 : t0 ≠ 0) :
    durationDefault * 1000 = 2000 ∧
    (animateTick 12847 durationDefault ⟨some t0, .fin 0⟩ (t0 + 1000)).1.count = .fin 6423 ∧
    (∀ t : ℚ, t0 + 2000 ≤ t →
      (animateTick 12847 durationDefault ⟨some t0, .fin 0⟩ t).1.count = .fin 12847 ∧
      (animateTick 12847 durationDefault ⟨some t0, .fin 0⟩ t).2 = false) := by
  refine ⟨by norm_num [durationDefault], ?_, ?_⟩
  · rw [animateTick_count 12847 durationDefault (by norm_num [durationDefault])]
    have hl : latchStart (AnimState.mk (some t0) (.fin 0)).startTime (t0 + 1000) = t0 :=
      latchStart_ne t0 _ h0
    rw [hl]
    have h1 : t0 + 1000 - t0 = 1000 := by ring
    rw [h1]
    have h2 : (1000 : ℚ) / (durationDefault * 1000) = 1 / 2 := by
      norm_num [durationDefault]
    rw [h2, min_eq_left (by norm_num : (1 / 2 : ℚ) ≤ 1)]
    norm_num
  · intro t ht
    have hl : latchStart (AnimState.mk (some t0) (.fin 0)).startTime t = t0 :=
      latchStart_ne t0 _ h0
    have hel : durationDefault * 1000 ≤
        t - latchStart (AnimState.mk (some t0) (.fin 0)).startTime t := by
      rw [hl]
      norm_num [durationDefault]
      linarith
    have h := terminal_tick 12847 durationDefault (by norm_num [durationDefault])
      ⟨some t0, .fin 0⟩ t hel
    refine ⟨?_, ?_⟩
    · have h1 := h.2.1
      norm_num at h1
      exact h1
    · exact h.2.2

/-- Claim C6 witness: run latched at 7; ticks at 1007 (elapsed 1000 ms)
and 3000 (elapsed 2993 ms, past the terminal instant). -/
theorem counter_scenario_12847_witness :
    (7 : ℚ) ≠ 0 ∧ (7 : ℚ) + 2000 ≤ 3000 ∧
      durationDefault * 1000 = 2000 ∧
      (animateTick 12847 durationDefault ⟨some 7, .fin 0⟩ ((7 : ℚ) + 1000)).1.count = .fin 6423 ∧
      (animateTick 12847 durationDefault ⟨some 7, .fin 0⟩ (3000 : ℚ)).1.count = .fin 12847 ∧
      (animateTick 12847 durationDefault ⟨some 7, .fin 0⟩ (3000 : ℚ)).2 = false :=
  ⟨by norm_num, by norm_num, (counter_scenario_12847 7 (by norm_num)).1,
    (counter_scenario_12847 7 (by norm_num)).2.1,
    ((counter_scenario_12847 7 (by norm_num)).2.2 3000 (by norm_num)).1,
    ((counter_scenario_12847 7 (by norm_num)).2.2 3000 (by norm_num)).2⟩

lemma negative_duration_tick (endv duration : ℚ) (hd : duration < 0) (s : AnimState)
    (t : ℚ) (hl : latchStart s.startTime t ≤ t) :
    (animateTick endv duration s t).2 = true := by
  have hD : duration * 1000 < 0 := by nlinarith
  rw [animateTick_cont endv duration (ne_of_lt hd)]
  have h1 : (t - latchStart s.startTime t) / (duration * 1000) ≤ 0 :=
    div_nonpos_iff.mpr (Or.inl ⟨by linarith, le_of_lt hD⟩)
  simp only [decide_eq_true_eq]
  exact lt_of_le_of_lt (le_trans (min_le_left _ _) h1) one_pos

lemma stream_latch_le (endv duration : ℚ) :
    ∀ n : ℕ, ∀ t : ℚ, (n : ℚ) ≤ t →
      latchStart (stateAfter endv duration (fun k => (k : ℚ)) n).startTime t ≤ t := by
  intro n
  induction n with
  | zero =>
    intro t _
    exact le_of_eq (latchStart_none t)
  | succ n ih =>
    intro t ht
    have hw : latchStart (stateAfter endv duration (fun k => (k : ℚ)) n).startTime
        ((n : ℚ)) ≤ (n : ℚ) := ih (n : ℚ) le_rfl
    have hst : (stateAfter endv duration (fun k => (k : ℚ)) (n + 1)).startTime =
        some (latchStart (stateAfter endv duration (fun k => (k : ℚ)) n).startTime
          ((n : ℚ))) := by
      rw [stateAfter, animateTick_startTime]
    have hnt : (n : ℚ) ≤ t := by
      have : ((n : ℚ)) ≤ ((n : ℚ) + 1) := by linarith
      calc (n : ℚ) ≤ (n : ℚ) + 1 := this
        _ = ((n + 1 : ℕ) : ℚ) := by push_cast; ring
        _ ≤ t := ht
    rw [hst]
    rcases eq_or_ne (latchStart
        (stateAfter endv duration (fun k => (k : ℚ)) n).startTime ((n : ℚ))) 0 with hz | hz
    · rw [hz, latchStart_zero]
    · rw [latchStart_ne _ t hz]
      linarith

/-- Claim C7 counterexample: with target 5 and the non-positive duration
prop -1, along the frame stream 0, 1, 2, ... every tick computes a
non-positive progress, so `progress < 1` always holds and every tick
requests another frame: the scheduling loop never stops. -/
theorem counter_negative_duration_loops :
    schedulesForever 5 (-1) (fun k => (k : ℚ)) := by
  intro n
  exact negative_duration_tick 5 (-1) (by norm_num) _ _
    (stream_latch_le 5 (-1) n (n : ℚ) le_rfl)

/-- Claim C7 (amended: with a zero duration no division-by-zero error can
occur — the model's division is total, yielding NaN for `0 / 0` and an
infinity otherwise — and every tick whose timestamp is at or past its
latched start computes a progress of NaN or exactly 1, so `progress < 1`
is false and no further tick is scheduled; with a negative duration,
however, the scheduling never stops, as the counterexample shows). -/
theorem counter_zero_duration_stops (endv : ℚ) (s : AnimState) (t : ℚ)
    (hl : latchStart s.startTime t ≤ t) :
    (progressOf 0 (latchStart s.startTime t) t = .nan ∨
      progressOf 0 (latchStart s.startTime t) t = .fin 1) ∧
    (animateTick endv 0 s t).2 = false := by
  rcases eq_or_lt_of_le hl with heq | hlt
  · have h0 : t - latchStart s.startTime t = 0 := sub_eq_zero.mpr heq.symm
    have hp : progressOf 0 (latchStart s.startTime t) t = .nan := by
      simp [progressOf, jsDiv, jsMin, h0]
    refine ⟨Or.inl hp, ?_⟩
    show jsLt (progressOf 0 (latchStart s.startTime t) t) (.fin 1) = false
    rw [hp]
    rfl
  · have h0 : 0 < t - latchStart s.startTime t := by linarith
    have hp : progressOf 0 (latchStart s.startTime t) t = .fin 1 := by
      simp [progressOf, jsDiv, jsMin, h0, h0.ne']
    refine ⟨Or.inr hp, ?_⟩
    show jsLt (progressOf 0 (latchStart s.startTime t) t) (.fin 1) = false
    rw [hp]
    norm_num [jsLt]

/-- Claim C7 witness (for the amended statement): state latched at 5,
tick at timestamp 8, zero duration. -/
theorem counter_zero_duration_stops_witness :
    latchStart (some 5) 8 ≤ 8 ∧
      ((progressOf 0 (latchStart (AnimState.mk (some 5) (.fin 0)).startTime 8) 8 = .nan ∨
        progressOf 0 (latchStart (AnimState.mk (some 5) (.fin 0)).startTime 8) 8 = .fin 1) ∧
      (animateTick 3 0 ⟨some 5, .fin 0⟩ 8).2 = false) :=
  ⟨by norm_num [latchStart],
    counter_zero_duration_stops 3 ⟨some 5, .fin 0⟩ 8 (by norm_num [latchStart])⟩

lemma animationStarts_true (evs : List Bool) : animationStarts true evs = 0 := by
  induction evs with
  | nil => rfl
  | cons e es ih => simp [animationStarts, ih]

/-- Claim C4: the animation never starts while no visibility report has
been true, and it starts exactly once per mounted instance as soon as
some report is true — later visibility changes never restart it. -/
theorem counter_starts_once (evs : List Bool) :
    startCount evs = (if evs.any id then 1 else 0) ∧
    (evs.any id = false → startCount evs = 0) := by
  have hmain : ∀ l : List Bool, animationStarts false l = if l.any id then 1 else 0 := by
    intro l
    induction l with
    | nil => rfl
    | cons e es ih =>
      cases e with
      | false => simpa [animationStarts] using ih
      | true => simp [animationStarts, animationStarts_true]
  refine ⟨hmain evs, ?_⟩
  intro h
  rw [startCount, hmain evs, h]
  rfl

/-- Claim C4 witness: no start without a true report; exactly one start
even when visibility toggles to true twice. -/
theorem counter_starts_once_witness :
    ([false, false].any id = false) ∧ startCount [false, false] = 0 ∧
      startCount [false, true, false, true] = 1 :=
  ⟨by decide, (counter_starts_once [false, false]).2 (by decide),
    by
      have h := (counter_starts_once [false, true, false, true]).1
      simpa using h⟩

lemma cancelFrame_lastReq_pending (s : SchedState) (hs : SchedInv s) :
    (cancelFrame s s.lastReq).pending = none := by
  rcases hl : s.lastReq with _ | i
  · rcases hs.1 with h | h
    · simpa [cancelFrame] using h
    · rw [hl] at h
      simpa [cancelFrame] using h
  · rcases hs.1 with h | h
    · simp [cancelFrame, h]
    · rw [hl] at h
      simp [cancelFrame, h]

lemma cancelFrame_writes (s : SchedState) (h : Option ℕ) :
    (cancelFrame s h).writesAfterUnmount = s.writesAfterUnmount := by
  rcases h with _ | i
  · rfl
  · simp only [cancelFrame]
    split
    · rfl
    · rfl

lemma schedInv_step (endv duration : ℚ) (s : SchedState) (hs : SchedInv s) (e : Ev) :
    SchedInv (stepEv endv duration s e) ∧
    (stepEv endv duration s e).writesAfterUnmount = s.writesAfterUnmount := by
  cases e with
  | frame t =>
    have hfr : stepEv endv duration s (Ev.frame t) = fireFrame endv duration s t := rfl
    rw [hfr, fireFrame]
    rcases hp : s.pending with _ | i
    · rw [if_pos rfl]
      exact ⟨hs, rfl⟩
    · rw [if_neg (by simp : ¬ ((some i : Option ℕ) = none))]
      have hm : s.mounted = true := by
        rcases hmm : s.mounted with _ | _
        · rw [hs.2 hmm] at hp
          cases hp
        · rfl
      rcases hr : (animateTick endv duration s.anim t).2 with _ | _
      · simp only [hr, Bool.false_eq_true, if_false]
        refine ⟨⟨Or.inl rfl, fun _ => rfl⟩, ?_⟩
        simp [fireWrite, hm]
      · simp only [hr, if_true]
        refine ⟨⟨Or.inr rfl, ?_⟩, ?_⟩
        · intro hmf
          simp [requestFrame, fireWrite, hm] at hmf
        · simp [requestFrame, fireWrite, hm]
  | unmount =>
    have hun : stepEv endv duration s Ev.unmount = unmountStep s := rfl
    have hpn : (unmountStep s).pending = none := cancelFrame_lastReq_pending s hs
    rw [hun]
    refine ⟨⟨Or.inl hpn, fun _ => hpn⟩, ?_⟩
    show (cancelFrame s s.lastReq).writesAfterUnmount = s.writesAfterUnmount
    exact cancelFrame_writes s s.lastReq

lemma runEvents_inv (endv duration : ℚ) (evs : List Ev) :
    ∀ s : SchedState, SchedInv s →
      SchedInv (runEvents endv duration s evs) ∧
      (runEvents endv duration s evs).writesAfterUnmount = s.writesAfterUnmount := by
  induction evs with
  | nil => intro s hs; exact ⟨hs, rfl⟩
  | cons e es ih =>
    intro s hs
    have h1 := schedInv_step endv duration s hs e
    have h2 := ih (stepEv endv duration s e) h1.1
    exact ⟨h2.1, by rw [runEvents, h2.2, h1.2]⟩

lemma runEvents_append (endv duration : ℚ) (evs1 evs2 : List Ev) :
    ∀ s : SchedState, runEvents endv duration s (evs1 ++ evs2) =
      runEvents endv duration (runEvents endv duration s evs1) evs2 := by
  induction evs1 with
  | nil => intro s; rfl
  | cons e es ih => intro s; rw [List.cons_append, runEvents, runEvents, ih]

lemma startedState_inv : SchedInv startedState :=
  ⟨Or.inr rfl, by intro h; simp [startedState, requestFrame] at h⟩

/-- Claim C5: from the moment the animation starts, whatever frames are
delivered and whenever the unmount happens, no count write ever occurs
after teardown; the cleanup leaves no outstanding frame request; and
cancelling with nothing outstanding is a silent no-op. -/
theorem counter_unmount_no_write (endv duration : ℚ) (evs : List Ev) :
    (runEvents endv duration startedState evs).writesAfterUnmount = 0 ∧
    (runEvents endv duration startedState (evs ++ [Ev.unmount])).pending = none ∧
    (∀ s : SchedState, s.pending = none → cancelFrame s s.lastReq = s) := by
  refine ⟨?_, ?_, ?_⟩
  · rw [(runEvents_inv endv duration evs startedState startedState_inv).2]
    rfl
  · rw [runEvents_append endv duration evs [Ev.unmount] startedState]
    have hinv := (runEvents_inv endv duration evs startedState startedState_inv).1
    show (stepEv endv duration (runEvents endv duration startedState evs) Ev.unmount).pending
      = none
    have hun : stepEv endv duration (runEvents endv duration startedState evs) Ev.unmount
        = unmountStep (runEvents endv duration startedState evs) := rfl
    rw [hun]
    exact cancelFrame_lastReq_pending _ hinv
  · intro s hsp
    rcases hl : s.lastReq with _ | i
    · rfl
    · show cancelFrame s (some i) = s
      simp [cancelFrame, hsp]

/-- Claim C5 witness: target 20, duration 2; a frame fires mid-run, the
component unmounts, a later frame finds nothing outstanding; and a
concrete cancel on a pending-free state is a no-op. -/
theorem counter_unmount_no_write_witness :
    (runEvents 20 2 startedState [Ev.frame 100, Ev.unmount, Ev.frame 200]).writesAfterUnmount
        = 0 ∧
    (runEvents 20 2 startedState ([Ev.frame 100] ++ [Ev.unmount])).pending = none ∧
    (SchedState.mk initState (some 3) none 4 true 0).pending = none ∧
    cancelFrame (SchedState.mk initState (some 3) none 4 true 0)
        (SchedState.mk initState (some 3) none 4 true 0).lastReq =
      SchedState.mk initState (some 3) none 4 true 0 :=
  ⟨(counter_unmount_no_write 20 2 [Ev.frame 100, Ev.unmount, Ev.frame 200]).1,
    (counter_unmount_no_write 20 2 [Ev.frame 100]).2.1, rfl,
    (counter_unmount_no_write 20 2 []).2.2 (SchedState.mk initState (some 3) none 4 true 0) rfl⟩

/-- Claim C8: the rendered text is always the locale-grouped numeric
value followed by the suffix appended verbatim; the settled run with
target 284 and suffix "+" renders "284+", grouping applies to the numeric
part (12847 renders as "12,847") and never to the suffix. -/
theorem counter_render_format :
    (∀ (s : AnimState) (suffix : String),
      renderText s suffix = JsNum.toLocale s.count ++ suffix) ∧
    (runTrace 284 2 [500, 2500]).map (fun s => renderText s "+") = ["0+", "284+"] ∧
    toLocaleString 12847 = "12,847" ∧
    renderText ⟨some 1, .fin 12847⟩ "+" = "12,847+" := by
  refine ⟨fun s suffix => rfl, ?_, by decide, ?_⟩
  · have htr : runTrace 284 2 [500, 2500] =
        [⟨some 500, .fin 0⟩, ⟨some 500, .fin 284⟩] := by
      norm_num [runTrace, runTraceFrom, animateTick, progressOf, latchStart, jsDiv,
        jsMin, jsMul, jsFloor, jsLt, initState]
    rw [htr]
    have h0 : JsNum.toLocale (.fin 0) = "0" := by
      have : Int.floor ((0 : ℚ)) = 0 := Int.floor_zero
      rw [JsNum.toLocale, this]
      decide
    have h284 : JsNum.toLocale (.fin 284) = "284" := by
      have : Int.floor ((284 : ℚ)) = 284 := by norm_num
      rw [JsNum.toLocale, this]
      decide
    simp [renderText, h0, h284]
  · have : Int.floor ((12847 : ℚ)) = 12847 := by norm_num
    rw [renderText, JsNum.toLocale, this]
    decide

/-- Claim C9, evaluated at the failing input: a run with target 20,
duration prop 2 and frame timestamps 0, 100, 200. The first tick captures
`startTime = 0`, but because `if (!startTime)` treats the captured 0 as
unset, the second tick re-captures `startTime = 100`; the third tick then
displays `floor(((200 - 100) / 2000) * 20) = 1`, while measuring elapsed
time from the first tick's timestamp — as the claim requires — would give
`floor((200 / 2000) * 20) = 2`. -/
theorem counter_start_latch_bug :
    (runTrace 20 2 [0, 100, 200]).map AnimState.startTime = [some 0, some 100, some 100] ∧
    (runTrace 20 2 [0, 100, 200]).map AnimState.count = [.fin 0, .fin 0, .fin 1] ∧
    specCount (200 - 0) (2 * 1000) 20 = 2 := by
  refine ⟨?_, ?_, ?_⟩ <;>
    norm_num [runTrace, runTraceFrom, animateTick, progressOf, latchStart, jsDiv, jsMin,
      jsMul, jsFloor, jsLt, initState, specCount, specProgress]

end Counter
